import Mathlib

/-!
Verification of the PyConfigEvents change-propagation and file-watch engine.

This file is a shallow embedding of `pyconfigevents/model.py` and
`pyconfigevents/event_handler.py`:

* Python primitive values are `PyValue`; `type(x) is type(y)` is compared via
  `PyValue.tyTag` (the runtime type identity of the value), and Python `==` on
  values of the same runtime type coincides with structural equality `=` on
  `PyValue` (only same-type comparisons occur in the embedded code, because
  `DataModel.__setattr__` checks the type tags before it compares values).
* Python dicts are association lists `List (κ × α)` with `lookupKV`,
  `insertKV` (assignment `d[k] = v`: replace in place, else append, matching
  insertion-ordered dict semantics) and `eraseKV` (`del d[k]`).
* Python sets of callbacks are lists without duplicates; a set's (arbitrary
  but fixed) iteration order is the list order.  Callbacks and the reload
  callbacks of the watcher are identified by a `Nat` handle; their dynamic
  behaviour ("does this callback raise?") is a `Nat → Bool` parameter, and
  raising aborts the embedded control flow exactly where a Python exception
  would propagate.
* Fallible operations return `Except PyError _`, or record the escaping
  exception in an `error : Option PyError` field next to the partial effects
  that happened before the exception was raised.
-/

namespace PyConfigEvents

/-- A Python primitive value as it occurs in the configuration models:
`int`, `str`, `bool`, `float`, and `pathlib.Path` values.  (Floats are only
carried around as opaque data by the models, never computed with, so they are
represented by their `Rat` value.) -/
inductive PyValue where
  | vint : Int → PyValue
  | vstr : String → PyValue
  | vbool : Bool → PyValue
  | vfloat : Rat → PyValue
  | vpath : String → PyValue
deriving DecidableEq, Repr

/-- The runtime type identity of a value: `type(v)`.  Two values satisfy the
Python check `type(a) is type(b)` iff their tags are equal. -/
def PyValue.tyTag : PyValue → Nat
  | .vint _ => 0
  | .vstr _ => 1
  | .vbool _ => 2
  | .vfloat _ => 3
  | .vpath _ => 4

/-- The Python exceptions raised by the embedded code. -/
inductive PyError where
  | typeError : PyError
  | attributeError : PyError
  | valueError : PyError
  | keyError : PyError
  | callbackError : Nat → PyError
  | fileReadError : String → PyError
deriving DecidableEq, Repr

section KV

variable {κ α : Type} [DecidableEq κ]

/-- Dict lookup `d.get(k)` / `k in d` on an association list. -/
def lookupKV : List (κ × α) → κ → Option α
  | [], _ => none
  | (k', v) :: rest, k => if k' = k then some v else lookupKV rest k

/-- Dict assignment `d[k] = v`: replace the value at the first occurrence of
`k` in place, else append a new entry (insertion-ordered dict semantics). -/
def insertKV : List (κ × α) → κ → α → List (κ × α)
  | [], k, v => [(k, v)]
  | (k', v') :: rest, k, v =>
      if k' = k then (k, v) :: rest else (k', v') :: insertKV rest k v

/-- Dict deletion `del d[k]` (removes every entry with key `k`; on the
duplicate-free lists maintained by the embedded code this is the single
entry). -/
def eraseKV (l : List (κ × α)) (k : κ) : List (κ × α) :=
  l.filter (fun p => decide (p.1 ≠ k))

/-- The keys of an association list, in order. -/
def keysKV (l : List (κ × α)) : List κ := l.map Prod.fst

end KV

/-! ## `pyconfigevents/model.py` -/

/-- An instance of `DataModel` (`model.py`): `fields` holds the declared
pydantic fields (`model_fields`) together with their current values, and
`subscribers` is the instance's private `__subscribers` dict from field name
to the set of registered callbacks.

`__subscribers: Dict[str, Set[Callable]] = defaultdict(set)` is written as a
class-level default, but the name is mangled to `_DataModel__subscribers`
(one leading underscore), which pydantic v2 turns into a private attribute;
pydantic initialises every private attribute on every instance with a deep
copy (`smart_deepcopy`) of the declared default, so each instance owns its
own, initially empty, registry — see `DataModel.new` below.  The presence of
a key in `subscribers` mirrors the presence of the key in the Python
`defaultdict` (a key is created by `subscribe` and by the notification loop
of `__setattr__`, both of which evaluate `self.__subscribers[name]`). -/
structure DataModel where
  fields : List (String × PyValue)
  subscribers : List (String × List Nat)
deriving DecidableEq, Repr

/-- Instantiating a `DataModel`: pydantic validates and stores the field
values and initialises the private `__subscribers` attribute with a fresh
deep copy of the (empty) `defaultdict(set)` class default, so a new instance
starts with an empty registry of its own. -/
def DataModel.new (fields : List (String × PyValue)) : DataModel :=
  { fields := fields, subscribers := [] }

/-- `set.add(callback)`: no duplicate is added (sets compare callables by
identity, which the `Nat` handles model). -/
def addCallback (l : List Nat) (cb : Nat) : List Nat :=
  if cb ∈ l then l else l ++ [cb]

/-- `DataModel.subscribe` (`model.py` lines 14-28): raises `ValueError` if
`field` is not in `model_fields`, otherwise `self.__subscribers[field]`
(creating the defaultdict entry) `.add(callback)`. -/
def DataModel.subscribe (m : DataModel) (field : String) (cb : Nat) :
    Except PyError DataModel :=
  if (lookupKV m.fields field).isSome then
    let cur := (lookupKV m.subscribers field).getD []
    .ok { m with subscribers := insertKV m.subscribers field (addCallback cur cb) }
  else
    .error .valueError

/-- `DataModel.unsubscribe` (`model.py` lines 30-38): if `field` has no entry
in `self.__subscribers`, silently return; otherwise `set.remove(callback)`,
which raises `KeyError` when `callback` is not in the set. -/
def DataModel.unsubscribe (m : DataModel) (field : String) (cb : Nat) :
    Except PyError DataModel :=
  match lookupKV m.subscribers field with
  | none => .ok m
  | some l =>
      if cb ∈ l then
        .ok { m with subscribers := insertKV m.subscribers field (l.erase cb) }
      else
        .error .keyError

/-- The notification loop of `__setattr__`:
`for callback in self.__subscribers[name]: callback(value)`.
Returns the invocations that happened (callback handle with the argument it
received, in iteration order) and the exception escaping the loop, if a
callback raised: the loop body has no handler, so the first raising callback
aborts the loop. -/
def runCallbacks (raises : Nat → Bool) (v : PyValue) :
    List Nat → List (Nat × PyValue) × Option PyError
  | [] => ([], none)
  | cb :: rest =>
      if raises cb then
        ([(cb, v)], some (.callbackError cb))
      else
        let r := runCallbacks raises v rest
        ((cb, v) :: r.1, r.2)

/-- The outcome of one field assignment: the model afterwards, the callback
invocations that happened, and the exception that escaped, if any. -/
structure SetattrResult where
  model : DataModel
  invoked : List (Nat × PyValue)
  error : Option PyError
deriving DecidableEq, Repr

/-- `DataModel.__setattr__` (`model.py` lines 62-91): raises
`AttributeError` if `name` is not a declared field; raises `TypeError` if
`type(value) is not type(old_value)` (both without storing anything);
otherwise stores the value, returns silently when `old_value == value`, and
otherwise runs every callback in `self.__subscribers[name]` with the new
value (evaluating `self.__subscribers[name]` creates the defaultdict entry
for `name` if it is missing). -/
def DataModel.setattr (raises : Nat → Bool) (m : DataModel) (name : String)
    (value : PyValue) : SetattrResult :=
  match lookupKV m.fields name with
  | none => { model := m, invoked := [], error := some .attributeError }
  | some old =>
      if value.tyTag ≠ old.tyTag then
        { model := m, invoked := [], error := some .typeError }
      else
        let m1 : DataModel := { m with fields := insertKV m.fields name value }
        if old = value then
          { model := m1, invoked := [], error := none }
        else
          let subs := (lookupKV m1.subscribers name).getD []
          let m2 : DataModel :=
            { m1 with subscribers := insertKV m1.subscribers name subs }
          let r := runCallbacks raises value subs
          { model := m2, invoked := r.1, error := r.2 }

/-- The two bookkeeping fields that `RootModel` declares on top of the
user's configuration fields. -/
def rootBookkeepingKeys : List String :=
  ["py_cfg_events_file_path", "py_cfg_events_auto_save"]

/-- `RootModel.to_dict` (`model.py` lines 116-125): `model_dump()` with the
two bookkeeping keys popped. -/
def RootModel.to_dict (m : DataModel) : List (String × PyValue) :=
  m.fields.filter (fun p => decide (p.1 ∉ rootBookkeepingKeys))

/-- The files on disk: a map from path to the stored configuration
document. -/
abbrev Disk := List (String × List (String × PyValue))

/-- `RootModel.save_to_file` (`model.py` lines 127-143): resolve the target
path (explicit argument, else the bound `py_cfg_events_file_path`, else
`ValueError`), then write `to_dict()` there. -/
def RootModel.save_to_file (m : DataModel) (explicit : Option String)
    (disk : Disk) : Except PyError Disk :=
  match explicit with
  | some p => .ok (insertKV disk p (RootModel.to_dict m))
  | none =>
      match lookupKV m.fields "py_cfg_events_file_path" with
      | some (.vpath p) => .ok (insertKV disk p (RootModel.to_dict m))
      | _ => .error .valueError

/-- A field assignment on a `RootModel` together with the disk: `RootModel`
does not override `__setattr__` (the auto-save override at `model.py` lines
146-150 is commented out with the note that no suitable implementation was
found), so the inherited `DataModel.__setattr__` runs and no file write
occurs; the disk is unchanged. -/
def RootModel.setattrStep (raises : Nat → Bool) (m : DataModel) (disk : Disk)
    (name : String) (value : PyValue) : SetattrResult × Disk :=
  (DataModel.setattr raises m name value, disk)

/-! ## `pyconfigevents/event_handler.py` -/

/-- Modelled from the spec: the `ConfigFile` identity class from the missing
`pyconfigevents/utils/file.py` (spec §4.3 ConfigFileIdentity): a canonical
absolute path with derived parent directory (`folder`) and `filename`;
equality and hash are defined solely by the canonical path, which the pair
(folder, filename) represents. -/
structure ConfigFile where
  folder : String
  filename : String
deriving DecidableEq, Repr

/-- Modelled from the spec: `ConfigFile.SUPPORTED_CONFIG_FILES`, the
supported-extension allow-list {json, yaml, toml} (spec §3, §6). -/
def SUPPORTED_CONFIG_FILES : List String := [".json", ".yaml", ".toml"]

/-- Python `p.endswith(e)` on strings, computed on the character lists. -/
def endsWithPy (p e : String) : Bool :=
  decide (p.toList.reverse.take e.toList.length = e.toList.reverse)

/-- `event.src_path.endswith(ConfigFile.SUPPORTED_CONFIG_FILES)`. -/
def supportedPath (p : String) : Bool :=
  SUPPORTED_CONFIG_FILES.any (fun e => endsWithPy p e)

/-- Modelled from the spec: constructing a `ConfigFile` from a raw event
path (`ConfigFile(file)` in `_trigger_processing`): the canonical path is
split at its last separator into parent directory and filename. -/
def ConfigFile.ofPath (s : String) : ConfigFile :=
  let cs := s.toList
  { folder := String.mk ((cs.reverse.dropWhile (fun c => c ≠ '/')).drop 1).reverse
    filename := String.mk (cs.reverse.takeWhile (fun c => c ≠ '/')).reverse }

/-- The state of a `ConfigFileEventHandler` (`event_handler.py` lines
12-86).  `_timer` is modelled by whether a live timer exists (`timerAlive`,
`self._timer is None or not self._timer.is_alive()` being the negation) and
by the delay the live timer was armed with (`timerDelay`, for reasoning about
the debounce window).  `pending` is `_pending_events`, a set of raw event
paths in insertion order, and `watch_files` the dict from `ConfigFile` to
reload-callback handle. -/
structure ConfigFileEventHandler where
  _delay : Rat
  timerAlive : Bool
  timerDelay : Option Rat
  pending : List String
  watch_files : List (ConfigFile × Nat)
deriving DecidableEq, Repr

/-- `ConfigFileEventHandler.__init__` (`event_handler.py` lines 23-29): note
that the constructor assigns the literal `1.0` to `self._delay`; the `delay`
parameter is never read. -/
def ConfigFileEventHandler.init (delay : Rat) : ConfigFileEventHandler :=
  { _delay := 1
    timerAlive := false
    timerDelay := none
    pending := []
    watch_files := [] }

/-- `ConfigFileEventHandler.add_watch_file` (lines 46-55): return if the
file is already watched, else register the callback for it. -/
def ConfigFileEventHandler.add_watch_file (h : ConfigFileEventHandler)
    (file : ConfigFile) (cb : Nat) : ConfigFileEventHandler :=
  if (lookupKV h.watch_files file).isSome then h
  else { h with watch_files := insertKV h.watch_files file cb }

/-- `ConfigFileEventHandler.remove_watch_file` (lines 57-64): delete the
file's entry if it is watched. -/
def ConfigFileEventHandler.remove_watch_file (h : ConfigFileEventHandler)
    (file : ConfigFile) : ConfigFileEventHandler :=
  if (lookupKV h.watch_files file).isSome then
    { h with watch_files := eraseKV h.watch_files file }
  else h

/-- `ConfigFileEventHandler.on_modified` (lines 66-86): ignore directory
events and unsupported paths; otherwise add the raw path to the pending set
and, if no timer is currently alive, arm a new `Timer(self._delay,
self._trigger_processing)`. -/
def ConfigFileEventHandler.on_modified (h : ConfigFileEventHandler)
    (is_directory : Bool) (src_path : String) : ConfigFileEventHandler :=
  if is_directory then h
  else if ¬ supportedPath src_path then h
  else
    let h1 : ConfigFileEventHandler :=
      { h with pending := if src_path ∈ h.pending then h.pending
                          else h.pending ++ [src_path] }
    if h1.timerAlive then h1
    else { h1 with timerAlive := true, timerDelay := some h1._delay }

/-- The processing loop of `_trigger_processing` (lines 40-44):
`for file in files: file = ConfigFile(file); if file in self.watch_files:
callback(read_config(file))`.  `readFails file = true` models `read_config`
raising for that file, `cbRaises cb = true` models the reload callback
raising; the loop has no handler, so the first exception aborts it and
escapes.  Returns the (file, callback) invocations that completed and the
escaping exception, if any. -/
def processFiles (readFails : ConfigFile → Bool) (cbRaises : Nat → Bool)
    (wf : List (ConfigFile × Nat)) :
    List String → List (ConfigFile × Nat) × Option PyError
  | [] => ([], none)
  | p :: rest =>
      let file := ConfigFile.ofPath p
      match lookupKV wf file with
      | none => processFiles readFails cbRaises wf rest
      | some cb =>
          if readFails file then ([], some (.fileReadError p))
          else if cbRaises cb then ([], some (.callbackError cb))
          else
            let r := processFiles readFails cbRaises wf rest
            ((file, cb) :: r.1, r.2)

/-- The outcome of one `_trigger_processing` run. -/
structure TriggerResult where
  handler : ConfigFileEventHandler
  processed : List (ConfigFile × Nat)
  error : Option PyError
deriving DecidableEq, Repr

/-- `ConfigFileEventHandler._trigger_processing` (lines 35-44), run when the
armed timer fires (so the timer is no longer alive): under the lock the
pending set is copied and cleared; outside the lock each pending path is
processed in turn by the unprotected loop `processFiles`. -/
def ConfigFileEventHandler.trigger_processing (readFails : ConfigFile → Bool)
    (cbRaises : Nat → Bool) (h : ConfigFileEventHandler) : TriggerResult :=
  let files := h.pending
  let h1 : ConfigFileEventHandler :=
    { h with pending := [], timerAlive := false, timerDelay := none }
  let r := processFiles readFails cbRaises h1.watch_files files
  { handler := h1, processed := r.1, error := r.2 }

/-- The state of the process-wide `ObserverManager` singleton
(`event_handler.py` lines 89-163): the directory-to-handler dict, the
per-directory reference counts, and the directories that currently carry an
OS-level watch (`self._observer.schedule` / `unschedule`). -/
structure ObserverManager where
  dir_to_event_handler : List (String × ConfigFileEventHandler)
  dir_count : List (String × Int)
  scheduled : List String
deriving DecidableEq, Repr

/-- The freshly initialised singleton: no handlers, no counts, no OS-level
watches. -/
def ObserverManager.initial : ObserverManager :=
  { dir_to_event_handler := [], dir_count := [], scheduled := [] }

/-- `ObserverManager.watch` (lines 112-130): if the file's directory already
has a handler, register the file on it and increment the directory's count
(note: the increment is unconditional, even when `add_watch_file` was a
no-op because the file was already registered); otherwise create a handler
with the default delay, register the file, set the count to 1, and schedule
a non-recursive OS-level watch on the directory. -/
def ObserverManager.watch (om : ObserverManager) (file : ConfigFile)
    (cb : Nat) : ObserverManager :=
  let dir := file.folder
  match lookupKV om.dir_to_event_handler dir with
  | some h =>
      { om with
        dir_to_event_handler :=
          insertKV om.dir_to_event_handler dir (h.add_watch_file file cb)
        dir_count :=
          insertKV om.dir_count dir ((lookupKV om.dir_count dir).getD 0 + 1) }
  | none =>
      let h := (ConfigFileEventHandler.init 1).add_watch_file file cb
      { dir_to_event_handler := insertKV om.dir_to_event_handler dir h
        dir_count := insertKV om.dir_count dir 1
        scheduled := om.scheduled ++ [dir] }

/-- `ObserverManager.unwatch` (lines 132-149): return if the file's
directory has no handler; otherwise remove the file from the handler (a
no-op when it is not registered) and decrement the count unconditionally;
when the count reaches 0, unschedule the OS-level watch and drop the handler
and the count entry. -/
def ObserverManager.unwatch (om : ObserverManager) (file : ConfigFile) :
    ObserverManager :=
  let dir := file.folder
  match lookupKV om.dir_to_event_handler dir with
  | none => om
  | some h =>
      let h1 := h.remove_watch_file file
      let c := (lookupKV om.dir_count dir).getD 0 - 1
      if c = 0 then
        { dir_to_event_handler := eraseKV om.dir_to_event_handler dir
          dir_count := eraseKV om.dir_count dir
          scheduled := om.scheduled.erase dir }
      else
        { om with
          dir_to_event_handler := insertKV om.dir_to_event_handler dir h1
          dir_count := insertKV om.dir_count dir c }

/-- Every state the process-wide manager can reach by any sequence of
`watch` and `unwatch` calls. -/
inductive ObserverManager.Reach : ObserverManager → Prop where
  | init : ObserverManager.Reach .initial
  | watch {om} (file : ConfigFile) (cb : Nat) :
      ObserverManager.Reach om → ObserverManager.Reach (om.watch file cb)
  | unwatch {om} (file : ConfigFile) :
      ObserverManager.Reach om → ObserverManager.Reach (om.unwatch file)

/-- Is `file` currently registered with its directory's handler? -/
def ObserverManager.isRegistered (om : ObserverManager) (file : ConfigFile) :
    Bool :=
  match lookupKV om.dir_to_event_handler file.folder with
  | none => false
  | some h => (lookupKV h.watch_files file).isSome

/-- The states reachable when callers never `watch` an already-registered
file and only `unwatch` currently registered files. -/
inductive ObserverManager.GoodReach : ObserverManager → Prop where
  | init : ObserverManager.GoodReach .initial
  | watch {om} (file : ConfigFile) (cb : Nat) :
      ObserverManager.GoodReach om → om.isRegistered file = false →
      ObserverManager.GoodReach (om.watch file cb)
  | unwatch {om} (file : ConfigFile) :
      ObserverManager.GoodReach om → om.isRegistered file = true →
      ObserverManager.GoodReach (om.unwatch file)

/-- The reference count the manager holds for a directory (0 when the
directory has no entry). -/
def ObserverManager.countOf (om : ObserverManager) (d : String) : Int :=
  (lookupKV om.dir_count d).getD 0

/-- The number of files registered with a directory's handler (0 when the
directory has no handler). -/
def ObserverManager.filesOf (om : ObserverManager) (d : String) : Nat :=
  match lookupKV om.dir_to_event_handler d with
  | none => 0
  | some h => h.watch_files.length

/-- The number of live OS-level watches the manager holds on a directory
(the multiplicity of `d` among the scheduled watches). -/
def ObserverManager.watchCount (om : ObserverManager) (d : String) : Nat :=
  om.scheduled.countP (fun x => decide (x = d))

/-- A well-formed subscriber registry: every field's callback set, being a
set, holds no duplicate handle.  (`subscribe` only ever adds absent
handles, so this is invariant; it is phrased over the entries so that it is
decidable on concrete models.) -/
def DataModel.WFsubs (m : DataModel) : Prop :=
  ∀ p ∈ m.subscribers, List.Nodup p.2

instance (m : DataModel) : Decidable m.WFsubs := by
  unfold DataModel.WFsubs; infer_instance

/-- The invocations `processFiles` performs on a batch when nothing in it
fails: one `(file, callback)` per pending path whose `ConfigFile` is
registered, in batch order. -/
def processedOf (wf : List (ConfigFile × Nat)) (ps : List String) :
    List (ConfigFile × Nat) :=
  ps.filterMap fun q =>
    (lookupKV wf (ConfigFile.ofPath q)).map fun cb => (ConfigFile.ofPath q, cb)

/-- The number of times the invocation `x` (a callback handle with its
argument) occurs in an invocation list. -/
def countPair (x : Nat × PyValue) (l : List (Nat × PyValue)) : Nat :=
  l.countP (fun p => decide (p = x))

/-- The number of times the callback handle `x` occurs in a callback set. -/
def countCb (x : Nat) (l : List Nat) : Nat :=
  l.countP (fun c => decide (c = x))

/-- Structural bookkeeping invariant of the `ObserverManager`, maintained by
arbitrary `watch`/`unwatch` sequences: the two dicts have duplicate-free
keys and the same domain, every stored reference count is at least 1, and
the scheduled OS-level watches are exactly (and singly) the directories that
have a handler. -/
structure ObserverManager.Inv1 (om : ObserverManager) : Prop where
  keysH : (keysKV om.dir_to_event_handler).Nodup
  keysC : (keysKV om.dir_count).Nodup
  domEq : ∀ d, (lookupKV om.dir_count d).isSome ↔
    (lookupKV om.dir_to_event_handler d).isSome
  posC : ∀ d c, lookupKV om.dir_count d = some c → 1 ≤ c
  schedNodup : om.scheduled.Nodup
  schedDom : ∀ d, d ∈ om.scheduled ↔ (lookupKV om.dir_to_event_handler d).isSome

/-- The counting invariant that holds on the disciplined (`GoodReach`)
states: each directory's stored reference count equals the number of
distinct files registered with its handler. -/
def ObserverManager.CountMatches (om : ObserverManager) : Prop :=
  ∀ d h, lookupKV om.dir_to_event_handler d = some h →
    lookupKV om.dir_count d = some (h.watch_files.length : Int) ∧
      (keysKV h.watch_files).Nodup

/-! ## Association-list lemmas -/

section KVLemmas

variable {κ α : Type} [DecidableEq κ]

theorem lookupKV_cons (k₀ : κ) (v₀ : α) (rest : List (κ × α)) (k : κ) :
    lookupKV ((k₀, v₀) :: rest) k
      = if k₀ = k then some v₀ else lookupKV rest k := rfl

theorem insertKV_cons_self {k₀ k : κ} (v₀ : α) (rest : List (κ × α)) (v : α)
    (h : k₀ = k) : insertKV ((k₀, v₀) :: rest) k v = (k, v) :: rest := by
  simp [insertKV, h]

theorem insertKV_cons_ne {k₀ k : κ} (v₀ : α) (rest : List (κ × α)) (v : α)
    (h : k₀ ≠ k) :
    insertKV ((k₀, v₀) :: rest) k v = (k₀, v₀) :: insertKV rest k v := by
  simp [insertKV, h]

theorem eraseKV_cons_self {k₀ k : κ} (v₀ : α) (rest : List (κ × α))
    (h : k₀ = k) : eraseKV ((k₀, v₀) :: rest) k = eraseKV rest k := by
  simp [eraseKV, List.filter_cons, h]

theorem eraseKV_cons_ne {k₀ k : κ} (v₀ : α) (rest : List (κ × α))
    (h : k₀ ≠ k) :
    eraseKV ((k₀, v₀) :: rest) k = (k₀, v₀) :: eraseKV rest k := by
  simp [eraseKV, List.filter_cons, h]

theorem keysKV_cons (k₀ : κ) (v₀ : α) (rest : List (κ × α)) :
    keysKV ((k₀, v₀) :: rest) = k₀ :: keysKV rest := rfl

theorem lookupKV_insertKV_self (l : List (κ × α)) (k : κ) (v : α) :
    lookupKV (insertKV l k v) k = some v := by
  induction l with
  | nil => simp [insertKV, lookupKV]
  | cons p rest ih =>
      obtain ⟨k₀, v₀⟩ := p
      by_cases h : k₀ = k
      · rw [insertKV_cons_self v₀ rest v h, lookupKV_cons, if_pos rfl]
      · rw [insertKV_cons_ne v₀ rest v h, lookupKV_cons, if_neg h, ih]

theorem lookupKV_insertKV_ne (l : List (κ × α)) {k k' : κ} (v : α)
    (h : k' ≠ k) : lookupKV (insertKV l k v) k' = lookupKV l k' := by
  induction l with
  | nil => simp [insertKV, lookupKV, Ne.symm h]
  | cons p rest ih =>
      obtain ⟨k₀, v₀⟩ := p
      by_cases h₀ : k₀ = k
      · rw [insertKV_cons_self v₀ rest v h₀, lookupKV_cons, lookupKV_cons,
          if_neg (Ne.symm h), if_neg (h₀ ▸ Ne.symm h)]
      · rw [insertKV_cons_ne v₀ rest v h₀, lookupKV_cons, lookupKV_cons, ih]

theorem lookupKV_eraseKV_self (l : List (κ × α)) (k : κ) :
    lookupKV (eraseKV l k) k = none := by
  induction l with
  | nil => simp [eraseKV, lookupKV]
  | cons p rest ih =>
      obtain ⟨k₀, v₀⟩ := p
      by_cases h : k₀ = k
      · rw [eraseKV_cons_self v₀ rest h, ih]
      · rw [eraseKV_cons_ne v₀ rest h, lookupKV_cons, if_neg h, ih]

theorem lookupKV_eraseKV_ne (l : List (κ × α)) {k k' : κ} (h : k' ≠ k) :
    lookupKV (eraseKV l k) k' = lookupKV l k' := by
  induction l with
  | nil => simp [eraseKV]
  | cons p rest ih =>
      obtain ⟨k₀, v₀⟩ := p
      by_cases h₀ : k₀ = k
      · rw [eraseKV_cons_self v₀ rest h₀, ih, lookupKV_cons,
          if_neg (h₀ ▸ Ne.symm h)]
      · rw [eraseKV_cons_ne v₀ rest h₀, lookupKV_cons, lookupKV_cons, ih]

theorem lookupKV_isSome_iff (l : List (κ × α)) (k : κ) :
    (lookupKV l k).isSome ↔ k ∈ keysKV l := by
  induction l with
  | nil => simp [lookupKV, keysKV]
  | cons p rest ih =>
      obtain ⟨k₀, v₀⟩ := p
      rw [lookupKV_cons, keysKV_cons]
      by_cases h : k₀ = k
      · simp [h]
      · simp only [if_neg h, List.mem_cons, ih]
        constructor
        · exact fun hk => Or.inr hk
        · rintro (rfl | hk)
          · exact absurd rfl h
          · exact hk

theorem lookupKV_mem {l : List (κ × α)} {k : κ} {v : α}
    (h : lookupKV l k = some v) : (k, v) ∈ l := by
  induction l with
  | nil => simp [lookupKV] at h
  | cons p rest ih =>
      obtain ⟨k₀, v₀⟩ := p
      rw [lookupKV_cons] at h
      by_cases h₀ : k₀ = k
      · rw [if_pos h₀] at h
        cases h
        exact h₀ ▸ List.mem_cons_self _ _
      · rw [if_neg h₀] at h
        exact List.mem_cons_of_mem _ (ih h)

theorem keysKV_insertKV (l : List (κ × α)) (k : κ) (v : α) :
    keysKV (insertKV l k v) = if k ∈ keysKV l then keysKV l
                              else keysKV l ++ [k] := by
  induction l with
  | nil => simp [insertKV, keysKV]
  | cons p rest ih =>
      obtain ⟨k₀, v₀⟩ := p
      by_cases h : k₀ = k
      · subst h
        rw [insertKV_cons_self v₀ rest v rfl, keysKV_cons, keysKV_cons,
          if_pos (List.mem_cons_self _ _)]
      · rw [insertKV_cons_ne v₀ rest v h, keysKV_cons, keysKV_cons, ih]
        by_cases hm : k ∈ keysKV rest
        · rw [if_pos hm, if_pos (List.mem_cons_of_mem _ hm)]
        · rw [if_neg hm, if_neg (by
            simp only [List.mem_cons]
            rintro (rfl | hk)
            · exact h rfl
            · exact hm hk)]
          simp

theorem keysKV_nodup_insertKV {l : List (κ × α)} (k : κ) (v : α)
    (h : (keysKV l).Nodup) : (keysKV (insertKV l k v)).Nodup := by
  rw [keysKV_insertKV]
  by_cases hm : k ∈ keysKV l
  · simpa [hm] using h
  · rw [if_neg hm, List.nodup_append]
    refine ⟨h, List.nodup_singleton _, ?_⟩
    rw [List.disjoint_singleton]
    exact hm

theorem keysKV_eraseKV (l : List (κ × α)) (k : κ) :
    keysKV (eraseKV l k) = (keysKV l).filter (fun x => decide (x ≠ k)) := by
  induction l with
  | nil => simp [eraseKV, keysKV]
  | cons p rest ih =>
      obtain ⟨k₀, v₀⟩ := p
      by_cases h : k₀ = k
      · rw [eraseKV_cons_self v₀ rest h, keysKV_cons, ih,
          List.filter_cons_of_neg (by simp [h])]
      · rw [eraseKV_cons_ne v₀ rest h, keysKV_cons, keysKV_cons, ih,
          List.filter_cons_of_pos (by simp [h])]

theorem keysKV_nodup_eraseKV {l : List (κ × α)} (k : κ)
    (h : (keysKV l).Nodup) : (keysKV (eraseKV l k)).Nodup := by
  rw [keysKV_eraseKV]
  exact h.filter _

theorem length_insertKV_of_mem {l : List (κ × α)} {k : κ} (v : α)
    (h : k ∈ keysKV l) : (insertKV l k v).length = l.length := by
  induction l with
  | nil => simp [keysKV] at h
  | cons p rest ih =>
      obtain ⟨k₀, v₀⟩ := p
      by_cases h₀ : k₀ = k
      · rw [insertKV_cons_self v₀ rest v h₀]
        simp
      · rw [keysKV_cons, List.mem_cons] at h
        rcases h with h | h
        · exact absurd h.symm h₀
        · rw [insertKV_cons_ne v₀ rest v h₀]
          simp [ih h]

theorem length_insertKV_of_not_mem {l : List (κ × α)} {k : κ} (v : α)
    (h : k ∉ keysKV l) : (insertKV l k v).length = l.length + 1 := by
  induction l with
  | nil => simp [insertKV]
  | cons p rest ih =>
      obtain ⟨k₀, v₀⟩ := p
      rw [keysKV_cons, List.mem_cons] at h
      push_neg at h
      have h₀ : k₀ ≠ k := fun h' => h.1 h'.symm
      rw [insertKV_cons_ne v₀ rest v h₀]
      simp [ih h.2]

theorem length_eraseKV_of_mem {l : List (κ × α)} {k : κ}
    (hnd : (keysKV l).Nodup) (h : k ∈ keysKV l) :
    (eraseKV l k).length + 1 = l.length := by
  induction l with
  | nil => simp [keysKV] at h
  | cons p rest ih =>
      obtain ⟨k₀, v₀⟩ := p
      rw [keysKV_cons, List.nodup_cons] at hnd
      by_cases h₀ : k₀ = k
      · subst h₀
        rw [eraseKV_cons_self v₀ rest rfl]
        have hrest : eraseKV rest k₀ = rest := by
          unfold eraseKV
          apply List.filter_eq_self.2
          intro p hp
          have hne : p.1 ≠ k₀ :=
            fun he => hnd.1 (he ▸ List.mem_map_of_mem Prod.fst hp)
          simpa using hne
        simp [hrest]
      · rw [keysKV_cons, List.mem_cons] at h
        rcases h with h | h
        · exact absurd h.symm h₀
        · rw [eraseKV_cons_ne v₀ rest h₀]
          have := ih hnd.2 h
          simp only [List.length_cons]
          omega

end KVLemmas

/-! ## Lemmas about the model operations -/

theorem mem_insertKV {κ α : Type} [DecidableEq κ] {l : List (κ × α)}
    {k : κ} {v : α} {p : κ × α} (h : p ∈ insertKV l k v) :
    p ∈ l ∨ p = (k, v) := by
  induction l with
  | nil => simpa [insertKV] using h
  | cons q rest ih =>
      obtain ⟨k₀, v₀⟩ := q
      by_cases h₀ : k₀ = k
      · rw [insertKV_cons_self v₀ rest v h₀] at h
        rcases List.mem_cons.1 h with h | h
        · exact Or.inr h
        · exact Or.inl (List.mem_cons_of_mem _ h)
      · rw [insertKV_cons_ne v₀ rest v h₀] at h
        rcases List.mem_cons.1 h with h | h
        · exact Or.inl (h ▸ List.mem_cons_self _ _)
        · rcases ih h with h | h
          · exact Or.inl (List.mem_cons_of_mem _ h)
          · exact Or.inr h

theorem addCallback_mem (l : List Nat) (cb : Nat) : cb ∈ addCallback l cb := by
  unfold addCallback
  by_cases h : cb ∈ l
  · simpa [h]
  · simp [h]

theorem addCallback_nodup {l : List Nat} (cb : Nat) (h : l.Nodup) :
    (addCallback l cb).Nodup := by
  unfold addCallback
  by_cases hm : cb ∈ l
  · simpa [hm]
  · rw [if_neg hm, List.nodup_append]
    refine ⟨h, List.nodup_singleton _, ?_⟩
    rw [List.disjoint_singleton]
    exact hm

theorem addCallback_count_self {l : List Nat} (cb : Nat) (h : l.Nodup) :
    (addCallback l cb).count cb = 1 := by
  unfold addCallback
  by_cases hm : cb ∈ l
  · rw [if_pos hm]
    exact List.count_eq_one_of_mem h hm
  · rw [if_neg hm, List.count_append, List.count_eq_zero.2 hm]
    simp

theorem addCallback_eq_of_mem {l : List Nat} {cb : Nat} (h : cb ∈ l) :
    addCallback l cb = l := by
  unfold addCallback
  rw [if_pos h]

theorem count_erase_self_of_nodup {l : List Nat} (cb : Nat) (h : l.Nodup) :
    (l.erase cb).count cb = 0 := by
  rw [List.count_erase_self]
  have := List.nodup_iff_count_le_one.1 h cb
  omega

theorem runCallbacks_no_raise {raises : Nat → Bool} {v : PyValue}
    {l : List Nat} (h : ∀ c ∈ l, raises c = false) :
    runCallbacks raises v l = (l.map (fun c => (c, v)), none) := by
  induction l with
  | nil => rfl
  | cons cb rest ih =>
      have hcb : raises cb = false := h cb (List.mem_cons_self _ _)
      rw [runCallbacks, if_neg (by simp [hcb])]
      rw [ih (fun c hc => h c (List.mem_cons_of_mem _ hc))]
      simp

theorem runCallbacks_split (raises : Nat → Bool) (v : PyValue)
    (l₁ : List Nat) (c : Nat) (l₂ : List Nat)
    (h₁ : ∀ x ∈ l₁, raises x = false) (hc : raises c = true) :
    runCallbacks raises v (l₁ ++ c :: l₂)
      = (l₁.map (fun x => (x, v)) ++ [(c, v)],
         some (.callbackError c)) := by
  induction l₁ with
  | nil => simp [runCallbacks, hc]
  | cons x rest ih =>
      have hx : raises x = false := h₁ x (List.mem_cons_self _ _)
      rw [List.cons_append, runCallbacks, if_neg (by simp [hx])]
      rw [ih (fun y hy => h₁ y (List.mem_cons_of_mem _ hy))]
      simp

theorem runCallbacks_fst_mem {raises : Nat → Bool} {v : PyValue}
    {l : List Nat} {p : Nat × PyValue}
    (h : p ∈ (runCallbacks raises v l).1) : p.1 ∈ l := by
  induction l with
  | nil => simp [runCallbacks] at h
  | cons cb rest ih =>
      rw [runCallbacks] at h
      by_cases hr : raises cb
      · rw [if_pos hr] at h
        simp at h
        simp [h]
      · rw [if_neg hr] at h
        rcases List.mem_cons.1 h with h | h
        · simp [h]
        · exact List.mem_cons_of_mem _ (ih h)

theorem subscribe_ok {m : DataModel} {field : String} {cb : Nat}
    (h : (lookupKV m.fields field).isSome) :
    m.subscribe field cb = .ok
      { m with subscribers := (insertKV m.subscribers field
          (addCallback ((lookupKV m.subscribers field).getD []) cb)) } := by
  unfold DataModel.subscribe
  rw [if_pos h]

theorem WFsubs_lookup {m : DataModel} {field : String}
    (hWF : m.WFsubs) : ((lookupKV m.subscribers field).getD []).Nodup := by
  cases hl : lookupKV m.subscribers field with
  | none => simp
  | some l =>
      have := hWF _ (lookupKV_mem hl)
      simpa using this

theorem WFsubs_subscribe {m m' : DataModel} {field : String} {cb : Nat}
    (hWF : m.WFsubs) (h : m.subscribe field cb = .ok m') : m'.WFsubs := by
  unfold DataModel.subscribe at h
  by_cases hd : (lookupKV m.fields field).isSome
  · rw [if_pos hd] at h
    cases h
    intro p hp
    rcases mem_insertKV hp with hp | hp
    · exact hWF p hp
    · subst hp
      exact addCallback_nodup cb (WFsubs_lookup hWF)
  · rw [if_neg hd] at h
    cases h

theorem setattr_type_mismatch {raises : Nat → Bool} {m : DataModel}
    {name : String} {value old : PyValue}
    (hdecl : lookupKV m.fields name = some old)
    (hty : value.tyTag ≠ old.tyTag) :
    m.setattr raises name value
      = { model := m, invoked := [], error := some .typeError } := by
  unfold DataModel.setattr
  rw [hdecl]
  simp [hty]

theorem setattr_eq_value {raises : Nat → Bool} {m : DataModel}
    {name : String} {value old : PyValue}
    (hdecl : lookupKV m.fields name = some old)
    (hty : value.tyTag = old.tyTag) (heq : old = value) :
    m.setattr raises name value
      = { model := { m with fields := insertKV m.fields name value },
          invoked := [], error := none } := by
  unfold DataModel.setattr
  rw [hdecl]
  simp [hty, heq]

theorem setattr_changed {raises : Nat → Bool} {m : DataModel}
    {name : String} {value old : PyValue}
    (hdecl : lookupKV m.fields name = some old)
    (hty : value.tyTag = old.tyTag) (hne : old ≠ value) :
    m.setattr raises name value
      = { model :=
            { fields := insertKV m.fields name value
              subscribers := insertKV m.subscribers name
                ((lookupKV m.subscribers name).getD []) }
          invoked := (runCallbacks raises value
            ((lookupKV m.subscribers name).getD [])).1
          error := (runCallbacks raises value
            ((lookupKV m.subscribers name).getD [])).2 } := by
  unfold DataModel.setattr
  rw [hdecl]
  simp [hty, hne]

theorem insertKV_self_of_lookup {κ α : Type} [DecidableEq κ]
    {l : List (κ × α)} {k : κ} {v : α} (h : lookupKV l k = some v) :
    insertKV l k v = l := by
  induction l with
  | nil => simp [lookupKV] at h
  | cons p rest ih =>
      obtain ⟨k₀, v₀⟩ := p
      rw [lookupKV_cons] at h
      by_cases h₀ : k₀ = k
      · rw [if_pos h₀] at h
        injection h with hv
        subst hv
        rw [insertKV_cons_self _ rest _ h₀, h₀]
      · rw [if_neg h₀] at h
        rw [insertKV_cons_ne v₀ rest v h₀, ih h]

theorem countCb_eq_count (x : Nat) (l : List Nat) : countCb x l = l.count x := by
  induction l with
  | nil => rfl
  | cons a t ih =>
      simp [countCb, List.countP_cons, List.count_cons] at ih ⊢
      rw [ih]

theorem countPair_map_self (s : List Nat) (v : PyValue) (x : Nat) :
    countPair (x, v) (s.map (fun c => (c, v))) = countCb x s := by
  induction s with
  | nil => rfl
  | cons a t ih =>
      simp [countPair, countCb, List.countP_cons, Prod.ext_iff] at ih ⊢
      rw [ih]

/-! ## Claims about `model.py` -/

/-- C1 (code_bug): the spec and the repository's own test
(`tests/unit/test_model_auto_save.py`) require that with auto-save enabled
every successful mutation re-persists the tree, so that the file re-read
equals the current dump; but `RootModel` leaves `DataModel.__setattr__`
unchanged (its auto-save override is commented out), so a successful
mutation of a root bound to `config.json` with the auto-save flag set leaves
the disk untouched, and the on-disk content no longer equals the tree's
dump. -/
theorem auto_save_mutation_leaves_disk_stale :
    let m : DataModel :=
      ⟨[("py_cfg_events_file_path", .vpath "config.json"),
        ("py_cfg_events_auto_save", .vbool true),
        ("version", .vstr "0.0.0")], []⟩
    let disk : Disk := [("config.json", RootModel.to_dict m)]
    let r := RootModel.setattrStep (fun _ => false) m disk "version"
      (.vstr "1.0.0")
    lookupKV m.fields "py_cfg_events_auto_save" = some (.vbool true) ∧
    r.1.error = none ∧
    lookupKV r.1.model.fields "version" = some (.vstr "1.0.0") ∧
    r.2 = disk ∧
    lookupKV r.2 "config.json" ≠ some (RootModel.to_dict r.1.model) := by
  decide

/-- C3 counterexample: a model with two registered callbacks for field `x`
and a value-changing assignment during which the first invoked callback
raises: the second registered callback is never invoked, so the claim that
every remaining registered callback still runs is false on the code. -/
theorem callback_exception_skips_rest_counterexample :
    let m : DataModel := ⟨[("x", .vint 0)], [("x", [1, 2])]⟩
    let r := m.setattr (fun c => c == 1) "x" (.vint 5)
    (lookupKV m.subscribers "x").getD [] = [1, 2] ∧
    r.invoked = [(1, .vint 5)] ∧
    r.error = some (.callbackError 1) ∧
    ¬ ((2, .vint 5) ∈ r.invoked) := by
  decide

/-- C3 amended: the notification loop of `__setattr__` has no exception
handler, so when a registered callback raises during a value-changing
assignment, the callbacks before it in the registry's iteration order have
been invoked with the new value, the raising callback was invoked, the
exception propagates to the caller, the remaining callbacks are not
invoked, and the field keeps the already-stored new value. -/
theorem callback_exception_aborts_notification (m : DataModel) (F : String)
    (v old : PyValue) (raises : Nat → Bool) (l₁ l₂ : List Nat) (c : Nat)
    (hdecl : lookupKV m.fields F = some old)
    (hty : v.tyTag = old.tyTag) (hne : old ≠ v)
    (hsubs : (lookupKV m.subscribers F).getD [] = l₁ ++ c :: l₂)
    (h₁ : ∀ x ∈ l₁, raises x = false) (hc : raises c = true) :
    (m.setattr raises F v).invoked = l₁.map (fun x => (x, v)) ++ [(c, v)] ∧
    (m.setattr raises F v).error = some (.callbackError c) ∧
    lookupKV (m.setattr raises F v).model.fields F = some v := by
  rw [setattr_changed hdecl hty hne]
  rw [hsubs, runCallbacks_split raises v l₁ c l₂ h₁ hc]
  exact ⟨rfl, rfl, lookupKV_insertKV_self m.fields F v⟩

/-- C3 amended, witness: two callbacks 1 and 2 on field `x`; callback 1
raises; the theorem applied at this input. -/
theorem callback_exception_aborts_notification_witness :
    ((DataModel.mk [("x", .vint 0)] [("x", [1, 2])]).setattr
        (fun c => c == 1) "x" (.vint 5)).invoked = [(1, .vint 5)] ∧
    ((DataModel.mk [("x", .vint 0)] [("x", [1, 2])]).setattr
        (fun c => c == 1) "x" (.vint 5)).error
      = some (.callbackError 1) := by
  have h := callback_exception_aborts_notification
    ⟨[("x", .vint 0)], [("x", [1, 2])]⟩ "x" (.vint 5) (.vint 0)
    (fun c => c == 1) [] [2] 1 (by decide) (by decide) (by decide)
    (by decide) (by decide) (by decide)
  exact ⟨h.1, h.2.1⟩

/-- C4: on a declared field with a registered callback, an accepted
value-changing assignment invokes the callback exactly once with the new
value, assigning a value equal to the current one invokes no callback, and
a callback fires iff the new value differs from the prior value under
equality comparison. -/
theorem field_write_notifies_iff_changed (m m' : DataModel) (F : String)
    (cb : Nat) (v old : PyValue)
    (hWF : m.WFsubs)
    (hdecl : lookupKV m.fields F = some old)
    (hty : v.tyTag = old.tyTag)
    (hsub : m.subscribe F cb = .ok m') :
    (countPair (cb, v) (m'.setattr (fun _ => false) F v).invoked
        = if v = old then 0 else 1) ∧
    ((m'.setattr (fun _ => false) F v).invoked = [] ↔ v = old) ∧
    (m'.setattr (fun _ => false) F v).error = none := by
  have hd : (lookupKV m.fields F).isSome := by rw [hdecl]; rfl
  rw [subscribe_ok hd] at hsub
  injection hsub with hm'
  subst hm'
  set cur := (lookupKV m.subscribers F).getD [] with hcur
  set s := addCallback cur cb with hs
  set M : DataModel := { m with subscribers := insertKV m.subscribers F s }
    with hM
  have hnd : s.Nodup := addCallback_nodup cb (WFsubs_lookup hWF)
  have hmem : cb ∈ s := addCallback_mem cur cb
  have hdecl' : lookupKV M.fields F = some old := hdecl
  have hlook : lookupKV M.subscribers F = some s :=
    lookupKV_insertKV_self _ F s
  by_cases hv : v = old
  · rw [setattr_eq_value hdecl' hty hv.symm]
    simp [hv, countPair]
  · have hne : old ≠ v := fun h => hv h.symm
    rw [setattr_changed hdecl' hty hne]
    simp only [hlook, Option.getD_some]
    rw [runCallbacks_no_raise (fun c _ => rfl)]
    dsimp only
    refine ⟨?_, ?_, rfl⟩
    · rw [if_neg hv]
      rw [countPair_map_self s v cb, countCb_eq_count]
      exact addCallback_count_self cb (WFsubs_lookup hWF)
    · constructor
      · intro hnil
        cases hs' : s with
        | nil =>
            rw [hs'] at hmem
            cases hmem
        | cons a t =>
            rw [hs'] at hnil
            simp at hnil
      · intro hveq
        exact absurd hveq hv

/-- C4 witness: one callback 7 on field `x`, assignment `0 → 1` (changed)
checked through the theorem at a concrete input. -/
theorem field_write_notifies_iff_changed_witness :
    countPair (7, .vint 1) ((DataModel.mk [("x", .vint 0)] [("x", [7])]).setattr
        (fun _ => false) "x" (.vint 1)).invoked
      = if (PyValue.vint 1) = (.vint 0) then 0 else 1 :=
  (field_write_notifies_iff_changed
    ⟨[("x", .vint 0)], []⟩ ⟨[("x", .vint 0)], [("x", [7])]⟩ "x" 7
    (.vint 1) (.vint 0) (by decide) (by decide) (by decide) (by rfl)).1

/-- C5: assigning a value whose runtime type differs from the stored value's
type raises the type-mismatch error (`TypeError`), leaves the whole model —
in particular the field's stored value — unchanged, and invokes no
callback. -/
theorem rejected_assignment_is_atomic (m : DataModel) (F : String)
    (v old : PyValue) (raises : Nat → Bool)
    (hdecl : lookupKV m.fields F = some old)
    (hty : v.tyTag ≠ old.tyTag) :
    (m.setattr raises F v).model = m ∧
    lookupKV (m.setattr raises F v).model.fields F = some old ∧
    (m.setattr raises F v).invoked = [] ∧
    (m.setattr raises F v).error = some .typeError := by
  rw [setattr_type_mismatch hdecl hty]
  exact ⟨rfl, hdecl, rfl, rfl⟩

/-- C5 witness: assigning the string value "y" to the int-valued field `x`
checked through the theorem at a concrete input. -/
theorem rejected_assignment_is_atomic_witness :
    ((DataModel.mk [("x", .vint 3)] []).setattr (fun _ => false) "x"
        (.vstr "y")).model = DataModel.mk [("x", .vint 3)] [] ∧
    ((DataModel.mk [("x", .vint 3)] []).setattr (fun _ => false) "x"
        (.vstr "y")).error = some .typeError := by
  have h := rejected_assignment_is_atomic ⟨[("x", .vint 3)], []⟩ "x"
    (.vstr "y") (.vint 3) (fun _ => false) (by decide) (by decide)
  exact ⟨h.1, h.2.2.2⟩

/-- C7: `subscribe` is idempotent by identity — a second `subscribe(F, cb)`
leaves the model unchanged, so `cb` is registered exactly once — and a
single `unsubscribe(F, cb)` then removes `cb` entirely, after which a
value-changing write to `F` invokes `cb` zero times (whatever the other
callbacks do). -/
theorem subscribe_idempotent_unsubscribe_removes
    (m m₁ m₂ m₃ : DataModel) (F : String) (cb : Nat) (v old : PyValue)
    (raises : Nat → Bool)
    (hWF : m.WFsubs)
    (hdecl : lookupKV m.fields F = some old)
    (h₁ : m.subscribe F cb = .ok m₁)
    (h₂ : m₁.subscribe F cb = .ok m₂)
    (h₃ : m₂.unsubscribe F cb = .ok m₃)
    (hty : v.tyTag = old.tyTag) (hne : old ≠ v) :
    m₂ = m₁ ∧
    countCb cb ((lookupKV m₂.subscribers F).getD []) = 1 ∧
    countCb cb ((lookupKV m₃.subscribers F).getD []) = 0 ∧
    (m₃.setattr raises F v).invoked.countP (fun p => decide (p.1 = cb))
      = 0 := by
  have hd : (lookupKV m.fields F).isSome := by rw [hdecl]; rfl
  rw [subscribe_ok hd] at h₁
  injection h₁ with hm₁
  subst hm₁
  set cur := (lookupKV m.subscribers F).getD [] with hcur
  set s := addCallback cur cb with hs
  set M₁ : DataModel := { m with subscribers := insertKV m.subscribers F s }
    with hM₁
  have hndcur : cur.Nodup := WFsubs_lookup hWF
  have hnds : s.Nodup := addCallback_nodup cb hndcur
  have hmem : cb ∈ s := addCallback_mem cur cb
  have hlook₁ : lookupKV M₁.subscribers F = some s :=
    lookupKV_insertKV_self _ F s
  have hd₁ : (lookupKV M₁.fields F).isSome := hd
  rw [subscribe_ok hd₁] at h₂
  injection h₂ with hm₂
  have hXM : ({ M₁ with subscribers := (insertKV M₁.subscribers F
      (addCallback ((lookupKV M₁.subscribers F).getD []) cb)) }
        : DataModel) = M₁ := by
    rw [hlook₁]
    show ({ M₁ with subscribers := (insertKV M₁.subscribers F
      (addCallback s cb)) } : DataModel) = M₁
    rw [addCallback_eq_of_mem hmem, insertKV_self_of_lookup hlook₁]
  have hm2eq : m₂ = M₁ := hm₂ ▸ hXM
  have h₃' : M₁.unsubscribe F cb
      = .ok { M₁ with subscribers := insertKV M₁.subscribers F (s.erase cb) }
      := by
    unfold DataModel.unsubscribe
    rw [hlook₁]
    simp [hmem]
  rw [hm2eq, h₃'] at h₃
  injection h₃ with hm₃
  subst hm₃
  have hlook₃ : lookupKV ({ M₁ with subscribers := (insertKV M₁.subscribers F
      (s.erase cb)) } : DataModel).subscribers F = some (s.erase cb) :=
    lookupKV_insertKV_self _ F _
  have hnotm : cb ∉ s.erase cb :=
    List.count_eq_zero.1 (count_erase_self_of_nodup cb hnds)
  refine ⟨hm2eq, ?_, ?_, ?_⟩
  · rw [hm2eq, hlook₁]
    rw [show (some s).getD [] = s from rfl, countCb_eq_count]
    exact addCallback_count_self cb hndcur
  · rw [hlook₃]
    rw [show (some (s.erase cb)).getD [] = s.erase cb from rfl,
      countCb_eq_count]
    exact count_erase_self_of_nodup cb hnds
  · have hdecl₃ : lookupKV ({ M₁ with subscribers :=
        (insertKV M₁.subscribers F (s.erase cb)) } : DataModel).fields F
        = some old := hdecl
    rw [setattr_changed hdecl₃ hty hne]
    dsimp only
    rw [hlook₃]
    apply List.countP_eq_zero.2
    intro p hp
    have hin : p.1 ∈ s.erase cb :=
      runCallbacks_fst_mem (by simpa using hp)
    have hne' : p.1 ≠ cb := fun he => hnotm (he ▸ hin)
    simpa using hne'

/-- C7 witness: callback 7 subscribed twice on field `x`, then unsubscribed
once; the theorem applied at this input. -/
theorem subscribe_idempotent_unsubscribe_removes_witness :
    (DataModel.mk [("x", .vint 0)] [("x", [7])])
      = DataModel.mk [("x", .vint 0)] [("x", [7])] ∧
    ((DataModel.mk [("x", .vint 0)] [("x", [])]).setattr (fun _ => false) "x"
        (.vint 1)).invoked.countP (fun p => decide (p.1 = 7)) = 0 := by
  have h := subscribe_idempotent_unsubscribe_removes
    ⟨[("x", .vint 0)], []⟩ ⟨[("x", .vint 0)], [("x", [7])]⟩
    ⟨[("x", .vint 0)], [("x", [7])]⟩ ⟨[("x", .vint 0)], [("x", [])]⟩
    "x" 7 (.vint 1) (.vint 0) (fun _ => false)
    (by decide) (by decide) (by rfl) (by rfl) (by rfl) (by decide) (by decide)
  exact ⟨h.1, h.2.2.2⟩

/-- C8: the subscription registry is per model instance: two separately
constructed instances own separate registries (pydantic gives each instance
a fresh deep copy of the private `__subscribers` default), so subscribing on
the first registers the callback exactly there, while a successful
value-changing write on the second — whose fresh registry is empty —
invokes no callback at all, in particular none registered only on the
first, and leaves the first's registration untouched. -/
theorem subscription_registry_per_instance
    (fs₁ fs₂ : List (String × PyValue)) (F : String) (cb : Nat)
    (v old : PyValue) (raises : Nat → Bool)
    (hdecl₁ : (lookupKV fs₁ F).isSome)
    (hdecl₂ : lookupKV fs₂ F = some old)
    (hty : v.tyTag = old.tyTag) (hne : old ≠ v) :
    (DataModel.new fs₁).subscribe F cb = .ok ⟨fs₁, [(F, [cb])]⟩ ∧
    ((DataModel.new fs₂).setattr raises F v).invoked = [] ∧
    ((DataModel.new fs₂).setattr raises F v).error = none ∧
    lookupKV ((DataModel.new fs₂).setattr raises F v).model.fields F
      = some v := by
  have hdecl₂' : lookupKV (DataModel.new fs₂).fields F = some old := hdecl₂
  rw [setattr_changed hdecl₂' hty hne]
  refine ⟨?_, rfl, rfl, lookupKV_insertKV_self _ F v⟩
  rw [subscribe_ok hdecl₁]
  rfl

/-- C8 witness: two instances over the same schema; callback 3 subscribed on
the first, a value-changing write on the second; the theorem applied at this
input. -/
theorem subscription_registry_per_instance_witness :
    (DataModel.new [("a", .vint 0)]).subscribe "a" 3
      = .ok ⟨[("a", .vint 0)], [("a", [3])]⟩ ∧
    ((DataModel.new [("a", .vint 0)]).setattr (fun _ => true) "a"
        (.vint 1)).invoked = [] := by
  have h := subscription_registry_per_instance
    [("a", .vint 0)] [("a", .vint 0)] "a" 3 (.vint 1) (.vint 0)
    (fun _ => true) (by decide) (by decide) (by decide) (by decide)
  exact ⟨h.1, h.2.1⟩

/-- C9: `unsubscribe` is asymmetric for unregistered callbacks: when no
subscriber-set entry exists for the field (even an undeclared one, since
`unsubscribe` never checks declaredness) it returns silently with the model
unchanged; but an entry exists after a prior `subscribe` or after a notified
(value-changing) write to the field, and then unsubscribing a callback that
is not in the entry raises `KeyError`. -/
theorem unsubscribe_missing_entry_asymmetry
    (m m' : DataModel) (F : String) (cb cb' : Nat) (l : List Nat)
    (v old : PyValue) (raises : Nat → Bool) :
    (lookupKV m.subscribers F = none → m.unsubscribe F cb = .ok m) ∧
    (lookupKV m.subscribers F = some l → cb ∉ l →
      m.unsubscribe F cb = .error .keyError) ∧
    (m.subscribe F cb' = .ok m' → lookupKV m'.subscribers F ≠ none) ∧
    (lookupKV m.fields F = some old → v.tyTag = old.tyTag → old ≠ v →
      lookupKV (m.setattr raises F v).model.subscribers F ≠ none) := by
  refine ⟨?_, ?_, ?_, ?_⟩
  · intro h
    unfold DataModel.unsubscribe
    rw [h]
  · intro h hmem
    unfold DataModel.unsubscribe
    rw [h]
    simp [hmem]
  · intro h
    unfold DataModel.subscribe at h
    by_cases hd : (lookupKV m.fields F).isSome
    · rw [if_pos hd] at h
      injection h with hm'
      subst hm'
      rw [lookupKV_insertKV_self]
      simp
    · rw [if_neg hd] at h
      cases h
  · intro hdecl hty hne
    rw [setattr_changed hdecl hty hne]
    dsimp only
    rw [lookupKV_insertKV_self]
    simp

/-- C9 witness: the theorem applied at a model with no entry for `x` (silent
no-op) and at a model whose `x` entry is `{5}` (unsubscribing 3 raises
`KeyError`). -/
theorem unsubscribe_missing_entry_asymmetry_witness :
    (DataModel.mk [("x", .vint 0)] []).unsubscribe "x" 3
      = .ok (DataModel.mk [("x", .vint 0)] []) ∧
    (DataModel.mk [("x", .vint 0)] [("x", [5])]).unsubscribe "x" 3
      = .error .keyError := by
  constructor
  · exact (unsubscribe_missing_entry_asymmetry ⟨[("x", .vint 0)], []⟩
      ⟨[("x", .vint 0)], []⟩ "x" 3 0 [] (.vint 0) (.vint 0)
      (fun _ => false)).1 (by decide)
  · exact (unsubscribe_missing_entry_asymmetry
      ⟨[("x", .vint 0)], [("x", [5])]⟩ ⟨[("x", .vint 0)], [("x", [5])]⟩
      "x" 3 0 [5] (.vint 0) (.vint 0) (fun _ => false)).2.1
      (by decide) (by decide)

/-! ## Claims about `event_handler.py`: debounce processing and delay -/

theorem processFiles_split (readFails : ConfigFile → Bool)
    (cbRaises : Nat → Bool) (wf : List (ConfigFile × Nat))
    (l₁ : List String) (p : String) (l₂ : List String) (cbp : Nat)
    (hgood : ∀ q ∈ l₁, ∀ cb, lookupKV wf (ConfigFile.ofPath q) = some cb →
      readFails (ConfigFile.ofPath q) = false ∧ cbRaises cb = false)
    (hreg : lookupKV wf (ConfigFile.ofPath p) = some cbp)
    (hfail : readFails (ConfigFile.ofPath p) = true ∨ cbRaises cbp = true) :
    processFiles readFails cbRaises wf (l₁ ++ p :: l₂)
      = (processedOf wf l₁,
         some (if readFails (ConfigFile.ofPath p) then .fileReadError p
               else .callbackError cbp)) := by
  induction l₁ with
  | nil =>
      by_cases hr : readFails (ConfigFile.ofPath p)
      · simp [processFiles, hreg, hr, processedOf]
      · have hcb : cbRaises cbp = true := by
          rcases hfail with hfail | hfail
          · exact absurd hfail (by simp [hr])
          · exact hfail
        simp [processFiles, hreg, hr, hcb, processedOf]
  | cons q rest ih =>
      have ih' := ih (fun r hr cb hc =>
        hgood r (List.mem_cons_of_mem _ hr) cb hc)
      cases hlq : lookupKV wf (ConfigFile.ofPath q) with
      | none =>
          have hpf : processFiles readFails cbRaises wf
              ((q :: rest) ++ p :: l₂)
              = processFiles readFails cbRaises wf (rest ++ p :: l₂) := by
            simp [processFiles, hlq]
          have hpo : processedOf wf (q :: rest) = processedOf wf rest := by
            simp [processedOf, List.filterMap_cons, hlq]
          rw [hpf, hpo, ih']
      | some cb =>
          have hq := hgood q (List.mem_cons_self _ _) cb hlq
          have hpf : processFiles readFails cbRaises wf
              ((q :: rest) ++ p :: l₂)
              = ((ConfigFile.ofPath q, cb)
                  :: (processFiles readFails cbRaises wf (rest ++ p :: l₂)).1,
                 (processFiles readFails cbRaises wf (rest ++ p :: l₂)).2)
              := by
            simp [processFiles, hlq, hq.1, hq.2]
          have hpo : processedOf wf (q :: rest)
              = (ConfigFile.ofPath q, cb) :: processedOf wf rest := by
            simp [processedOf, List.filterMap_cons, hlq]
          rw [hpf, ih', hpo]

/-- C6 counterexample: a debounce batch with two registered pending files,
where the read of the first fails: the second file's callback is never
invoked and the exception escapes, so the claim that the remaining files are
still processed is false on the code. -/
theorem batch_fault_isolation_counterexample :
    let fa : ConfigFile := ⟨"d", "a.json"⟩
    let fb : ConfigFile := ⟨"d", "b.json"⟩
    let h : ConfigFileEventHandler :=
      ⟨1, true, some 1, ["d/a.json", "d/b.json"], [(fa, 1), (fb, 2)]⟩
    let r := h.trigger_processing (fun f => decide (f = fa)) (fun _ => false)
    lookupKV h.watch_files fb = some 2 ∧
    r.error = some (.fileReadError "d/a.json") ∧
    r.processed = [] ∧
    ¬ ((fb, 2) ∈ r.processed) := by
  decide

/-- C6 amended: the processing loop of `_trigger_processing` has no
exception handler, so when the read or reload callback of one pending file
fails, the registered files before it in the batch's iteration order have
been processed, the pending set was already cleared under the lock, but the
remaining files are not processed and the exception escapes the batch. -/
theorem trigger_failure_aborts_batch (h : ConfigFileEventHandler)
    (readFails : ConfigFile → Bool) (cbRaises : Nat → Bool)
    (l₁ l₂ : List String) (p : String) (cbp : Nat)
    (hpend : h.pending = l₁ ++ p :: l₂)
    (hgood : ∀ q ∈ l₁, ∀ cb,
      lookupKV h.watch_files (ConfigFile.ofPath q) = some cb →
      readFails (ConfigFile.ofPath q) = false ∧ cbRaises cb = false)
    (hreg : lookupKV h.watch_files (ConfigFile.ofPath p) = some cbp)
    (hfail : readFails (ConfigFile.ofPath p) = true ∨ cbRaises cbp = true) :
    (h.trigger_processing readFails cbRaises).processed
      = processedOf h.watch_files l₁ ∧
    (h.trigger_processing readFails cbRaises).error
      = some (if readFails (ConfigFile.ofPath p) then .fileReadError p
              else .callbackError cbp) ∧
    (h.trigger_processing readFails cbRaises).handler.pending = [] := by
  unfold ConfigFileEventHandler.trigger_processing
  dsimp only
  rw [hpend,
    processFiles_split readFails cbRaises h.watch_files l₁ p l₂ cbp
      hgood hreg hfail]
  exact ⟨rfl, rfl, rfl⟩

/-- C6 amended, witness: the theorem applied at a concrete batch of two
registered files whose first read fails. -/
theorem trigger_failure_aborts_batch_witness :
    ((ConfigFileEventHandler.mk 1 true (some 1) ["d/a.json", "d/b.json"]
        [(⟨"d", "a.json"⟩, 1), (⟨"d", "b.json"⟩, 2)]).trigger_processing
      (fun f => decide (f = ⟨"d", "a.json"⟩)) (fun _ => false)).processed
      = processedOf [(⟨"d", "a.json"⟩, 1), (⟨"d", "b.json"⟩, 2)] [] :=
  (trigger_failure_aborts_batch _ _ _ [] ["d/b.json"] "d/a.json" 1
    rfl (fun q hq => absurd hq (List.not_mem_nil q))
    (by decide) (Or.inl (by decide))).1

/-- C10: the `delay` argument of the `ConfigFileEventHandler` constructor is
never read — the constructor stores the literal 1.0 in `self._delay`, so
the constructed handler does not depend on it at all — and the timer armed
by `on_modified` always uses the stored `_delay`, which `on_modified` never
changes; hence the debounce window is always 1.0 seconds. -/
theorem debounce_delay_always_one (d : Rat) (h : ConfigFileEventHandler)
    (is_directory : Bool) (p : String) :
    ConfigFileEventHandler.init d = ConfigFileEventHandler.init 1 ∧
    (ConfigFileEventHandler.init d)._delay = 1 ∧
    (h.on_modified is_directory p)._delay = h._delay ∧
    (h.timerAlive = false → (h.on_modified is_directory p).timerAlive = true →
      (h.on_modified is_directory p).timerDelay = some h._delay) ∧
    (supportedPath p = true →
      ((ConfigFileEventHandler.init d).on_modified false p).timerDelay
        = some 1) := by
  refine ⟨rfl, rfl, ?_, ?_, ?_⟩
  · by_cases h₁ : is_directory
    · simp [ConfigFileEventHandler.on_modified, h₁]
    · by_cases h₂ : supportedPath p
      · by_cases h₃ : h.timerAlive
        · simp [ConfigFileEventHandler.on_modified, h₁, h₂, h₃]
        · simp [ConfigFileEventHandler.on_modified, h₁, h₂, h₃]
      · simp [ConfigFileEventHandler.on_modified, h₁, h₂]
  · intro hna harm
    by_cases h₁ : is_directory
    · simp [ConfigFileEventHandler.on_modified, h₁, hna] at harm
    · by_cases h₂ : supportedPath p
      · simp [ConfigFileEventHandler.on_modified, h₁, h₂, hna]
      · simp [ConfigFileEventHandler.on_modified, h₁, h₂, hna] at harm
  · intro hsupp
    simp [ConfigFileEventHandler.on_modified, ConfigFileEventHandler.init,
      hsupp]

/-- C10 witness: the theorem applied at `delay = 5` and a supported path:
the armed debounce window is still 1.0. -/
theorem debounce_delay_always_one_witness :
    ConfigFileEventHandler.init 5 = ConfigFileEventHandler.init 1 ∧
    ((ConfigFileEventHandler.init 5).on_modified false "d/a.json").timerDelay
      = some 1 := by
  have h := debounce_delay_always_one 5 (ConfigFileEventHandler.init 5)
    false "d/a.json"
  exact ⟨h.1, h.2.2.2.2 (by decide)⟩

/-! ## Claims about `event_handler.py`: the watch registry (C2) -/

theorem countP_key_eq_zero {α : Type} [DecidableEq α] {l : List α} {d : α}
    (h : d ∉ l) : l.countP (fun x => decide (x = d)) = 0 := by
  apply List.countP_eq_zero.2
  intro a ha
  simp only [decide_eq_true_eq]
  rintro rfl
  exact h ha

theorem countP_key_eq_one {α : Type} [DecidableEq α] {l : List α} {d : α}
    (hnd : l.Nodup) (hm : d ∈ l) :
    l.countP (fun x => decide (x = d)) = 1 := by
  induction l with
  | nil => cases hm
  | cons a t ih =>
      rw [List.nodup_cons] at hnd
      rw [List.countP_cons]
      by_cases ha : a = d
      · subst ha
        rw [countP_key_eq_zero hnd.1]
        simp
      · rcases List.mem_cons.1 hm with hm | hm
        · exact absurd hm.symm ha
        · rw [ih hnd.2 hm]
          simp [ha]

theorem watch_some_eq {om : ObserverManager} {file : ConfigFile} {cb : Nat}
    {h : ConfigFileEventHandler}
    (hl : lookupKV om.dir_to_event_handler file.folder = some h) :
    om.watch file cb = { om with
      dir_to_event_handler := (insertKV om.dir_to_event_handler file.folder
        (h.add_watch_file file cb))
      dir_count := (insertKV om.dir_count file.folder
        ((lookupKV om.dir_count file.folder).getD 0 + 1)) } := by
  unfold ObserverManager.watch
  dsimp only
  rw [hl]

theorem watch_none_eq {om : ObserverManager} {file : ConfigFile} {cb : Nat}
    (hl : lookupKV om.dir_to_event_handler file.folder = none) :
    om.watch file cb =
      { dir_to_event_handler := (insertKV om.dir_to_event_handler file.folder
          ((ConfigFileEventHandler.init 1).add_watch_file file cb))
        dir_count := (insertKV om.dir_count file.folder 1)
        scheduled := om.scheduled ++ [file.folder] } := by
  unfold ObserverManager.watch
  dsimp only
  rw [hl]

theorem unwatch_none_eq {om : ObserverManager} {file : ConfigFile}
    (hl : lookupKV om.dir_to_event_handler file.folder = none) :
    om.unwatch file = om := by
  unfold ObserverManager.unwatch
  dsimp only
  rw [hl]

theorem unwatch_some_zero_eq {om : ObserverManager} {file : ConfigFile}
    {h : ConfigFileEventHandler}
    (hl : lookupKV om.dir_to_event_handler file.folder = some h)
    (hc : (lookupKV om.dir_count file.folder).getD 0 - 1 = 0) :
    om.unwatch file =
      { dir_to_event_handler := eraseKV om.dir_to_event_handler file.folder
        dir_count := eraseKV om.dir_count file.folder
        scheduled := om.scheduled.erase file.folder } := by
  unfold ObserverManager.unwatch
  dsimp only
  rw [hl]
  dsimp only
  rw [if_pos hc]

theorem unwatch_some_pos_eq {om : ObserverManager} {file : ConfigFile}
    {h : ConfigFileEventHandler}
    (hl : lookupKV om.dir_to_event_handler file.folder = some h)
    (hc : ¬ (lookupKV om.dir_count file.folder).getD 0 - 1 = 0) :
    om.unwatch file = { om with
      dir_to_event_handler := (insertKV om.dir_to_event_handler file.folder
        (h.remove_watch_file file))
      dir_count := (insertKV om.dir_count file.folder
        ((lookupKV om.dir_count file.folder).getD 0 - 1)) } := by
  unfold ObserverManager.unwatch
  dsimp only
  rw [hl]
  dsimp only
  rw [if_neg hc]

theorem inv1_initial : ObserverManager.initial.Inv1 := by
  refine ⟨List.nodup_nil, List.nodup_nil, ?_, ?_, List.nodup_nil, ?_⟩
  · intro d
    simp [ObserverManager.initial, lookupKV]
  · intro d c hc
    simp [ObserverManager.initial, lookupKV] at hc
  · intro d
    simp [ObserverManager.initial, lookupKV]

theorem inv1_watch (om : ObserverManager) (file : ConfigFile) (cb : Nat)
    (hinv : om.Inv1) : (om.watch file cb).Inv1 := by
  cases hl : lookupKV om.dir_to_event_handler file.folder with
  | some h =>
      rw [watch_some_eq hl]
      refine ⟨keysKV_nodup_insertKV _ _ hinv.keysH,
        keysKV_nodup_insertKV _ _ hinv.keysC, ?_, ?_, hinv.schedNodup, ?_⟩
      · intro d
        by_cases hd : d = file.folder
        · subst hd
          rw [lookupKV_insertKV_self, lookupKV_insertKV_self]
          simp
        · rw [lookupKV_insertKV_ne _ _ hd, lookupKV_insertKV_ne _ _ hd]
          exact hinv.domEq d
      · intro d c hc
        by_cases hd : d = file.folder
        · subst hd
          rw [lookupKV_insertKV_self] at hc
          injection hc with hc
          subst hc
          cases hc₀ : lookupKV om.dir_count file.folder with
          | none => simp [hc₀]
          | some c₀ =>
              have := hinv.posC _ _ hc₀
              simp [hc₀]
              omega
        · rw [lookupKV_insertKV_ne _ _ hd] at hc
          exact hinv.posC _ _ hc
      · intro d
        by_cases hd : d = file.folder
        · subst hd
          rw [lookupKV_insertKV_self]
          simp only [Option.isSome_some]
          rw [hinv.schedDom file.folder, hl]
          simp
        · rw [lookupKV_insertKV_ne _ _ hd]
          exact hinv.schedDom d
  | none =>
      rw [watch_none_eq hl]
      have hns : file.folder ∉ om.scheduled := by
        rw [hinv.schedDom file.folder, hl]
        simp
      refine ⟨keysKV_nodup_insertKV _ _ hinv.keysH,
        keysKV_nodup_insertKV _ _ hinv.keysC, ?_, ?_, ?_, ?_⟩
      · intro d
        by_cases hd : d = file.folder
        · subst hd
          rw [lookupKV_insertKV_self, lookupKV_insertKV_self]
          simp
        · rw [lookupKV_insertKV_ne _ _ hd, lookupKV_insertKV_ne _ _ hd]
          exact hinv.domEq d
      · intro d c hc
        by_cases hd : d = file.folder
        · subst hd
          rw [lookupKV_insertKV_self] at hc
          injection hc with hc
          omega
        · rw [lookupKV_insertKV_ne _ _ hd] at hc
          exact hinv.posC _ _ hc
      · rw [List.nodup_append]
        refine ⟨hinv.schedNodup, List.nodup_singleton _, ?_⟩
        rw [List.disjoint_singleton]
        exact hns
      · intro d
        by_cases hd : d = file.folder
        · subst hd
          rw [lookupKV_insertKV_self]
          simp
        · rw [lookupKV_insertKV_ne _ _ hd]
          rw [List.mem_append, List.mem_singleton]
          rw [hinv.schedDom d]
          simp [hd]

theorem inv1_unwatch (om : ObserverManager) (file : ConfigFile)
    (hinv : om.Inv1) : (om.unwatch file).Inv1 := by
  cases hl : lookupKV om.dir_to_event_handler file.folder with
  | none => rw [unwatch_none_eq hl]; exact hinv
  | some h =>
      by_cases hc : (lookupKV om.dir_count file.folder).getD 0 - 1 = 0
      · rw [unwatch_some_zero_eq hl hc]
        refine ⟨keysKV_nodup_eraseKV _ hinv.keysH,
          keysKV_nodup_eraseKV _ hinv.keysC, ?_, ?_,
          hinv.schedNodup.erase _, ?_⟩
        · intro d
          by_cases hd : d = file.folder
          · subst hd
            rw [lookupKV_eraseKV_self, lookupKV_eraseKV_self]
            exact Iff.rfl
          · rw [lookupKV_eraseKV_ne _ hd, lookupKV_eraseKV_ne _ hd]
            exact hinv.domEq d
        · intro d c hcc
          by_cases hd : d = file.folder
          · subst hd
            rw [lookupKV_eraseKV_self] at hcc
            cases hcc
          · rw [lookupKV_eraseKV_ne _ hd] at hcc
            exact hinv.posC _ _ hcc
        · intro d
          rw [hinv.schedNodup.mem_erase_iff]
          by_cases hd : d = file.folder
          · subst hd
            rw [lookupKV_eraseKV_self]
            simp
          · rw [lookupKV_eraseKV_ne _ hd, hinv.schedDom d]
            simp [hd]
      · rw [unwatch_some_pos_eq hl hc]
        refine ⟨keysKV_nodup_insertKV _ _ hinv.keysH,
          keysKV_nodup_insertKV _ _ hinv.keysC, ?_, ?_,
          hinv.schedNodup, ?_⟩
        · intro d
          by_cases hd : d = file.folder
          · subst hd
            rw [lookupKV_insertKV_self, lookupKV_insertKV_self]
            simp
          · rw [lookupKV_insertKV_ne _ _ hd, lookupKV_insertKV_ne _ _ hd]
            exact hinv.domEq d
        · intro d c hcc
          by_cases hd : d = file.folder
          · subst hd
            rw [lookupKV_insertKV_self] at hcc
            injection hcc with hcc
            subst hcc
            have hds : (lookupKV om.dir_count file.folder).isSome :=
              (hinv.domEq file.folder).2 (by rw [hl]; rfl)
            cases hc0 : lookupKV om.dir_count file.folder with
            | none =>
                rw [hc0] at hds
                cases hds
            | some c0 =>
                have hp := hinv.posC _ _ hc0
                simp only [hc0, Option.getD_some] at hc ⊢
                omega
          · rw [lookupKV_insertKV_ne _ _ hd] at hcc
            exact hinv.posC _ _ hcc
        · intro d
          by_cases hd : d = file.folder
          · subst hd
            rw [lookupKV_insertKV_self]
            simp only [Option.isSome_some]
            rw [hinv.schedDom file.folder, hl]
            simp
          · rw [lookupKV_insertKV_ne _ _ hd]
            exact hinv.schedDom d

theorem reach_inv1 {om : ObserverManager} (h : ObserverManager.Reach om) :
    om.Inv1 := by
  induction h with
  | init => exact inv1_initial
  | watch file cb _ ih => exact inv1_watch _ file cb ih
  | unwatch file _ ih => exact inv1_unwatch _ file ih

theorem isRegistered_false_some {om : ObserverManager} {file : ConfigFile}
    {h : ConfigFileEventHandler}
    (hl : lookupKV om.dir_to_event_handler file.folder = some h)
    (hreg : om.isRegistered file = false) :
    lookupKV h.watch_files file = none := by
  unfold ObserverManager.isRegistered at hreg
  rw [hl] at hreg
  dsimp only at hreg
  cases hlf : lookupKV h.watch_files file with
  | none => rfl
  | some cb =>
      rw [hlf] at hreg
      simp at hreg

theorem isRegistered_true_elim {om : ObserverManager} {file : ConfigFile}
    (hreg : om.isRegistered file = true) :
    ∃ h, lookupKV om.dir_to_event_handler file.folder = some h ∧
      (lookupKV h.watch_files file).isSome = true := by
  unfold ObserverManager.isRegistered at hreg
  cases hl : lookupKV om.dir_to_event_handler file.folder with
  | none =>
      rw [hl] at hreg
      cases hreg
  | some h =>
      rw [hl] at hreg
      exact ⟨h, rfl, hreg⟩

theorem add_watch_file_absent {h : ConfigFileEventHandler}
    {file : ConfigFile} {cb : Nat} (hl : lookupKV h.watch_files file = none) :
    h.add_watch_file file cb
      = { h with watch_files := insertKV h.watch_files file cb } := by
  unfold ConfigFileEventHandler.add_watch_file
  rw [hl]
  rfl

theorem remove_watch_file_present {h : ConfigFileEventHandler}
    {file : ConfigFile} (hl : (lookupKV h.watch_files file).isSome = true) :
    h.remove_watch_file file
      = { h with watch_files := eraseKV h.watch_files file } := by
  unfold ConfigFileEventHandler.remove_watch_file
  rw [hl]
  rfl

theorem good_inv {om : ObserverManager} (hg : ObserverManager.GoodReach om) :
    om.Inv1 ∧ om.CountMatches := by
  induction hg with
  | init =>
      refine ⟨inv1_initial, ?_⟩
      intro d h hl
      simp [ObserverManager.initial, lookupKV] at hl
  | @watch om file cb hgood hreg ih =>
      obtain ⟨hinv, hcm⟩ := ih
      refine ⟨inv1_watch om file cb hinv, ?_⟩
      intro d h' hl'
      cases hl : lookupKV om.dir_to_event_handler file.folder with
      | some h =>
          have hlf : lookupKV h.watch_files file = none :=
            isRegistered_false_some hl hreg
          rw [watch_some_eq hl] at hl' ⊢
          by_cases hd : d = file.folder
          · subst hd
            rw [lookupKV_insertKV_self] at hl'
            injection hl' with hl'
            subst hl'
            rw [lookupKV_insertKV_self]
            obtain ⟨hc0, hnd0⟩ := hcm file.folder h hl
            have hnm : file ∉ keysKV h.watch_files := by
              rw [← lookupKV_isSome_iff, hlf]
              simp
            rw [add_watch_file_absent hlf]
            constructor
            · rw [hc0]
              simp only [Option.getD_some]
              rw [length_insertKV_of_not_mem cb hnm]
              norm_cast
            · exact keysKV_nodup_insertKV _ _ hnd0
          · rw [lookupKV_insertKV_ne _ _ hd] at hl'
            rw [lookupKV_insertKV_ne _ _ hd]
            exact hcm d h' hl'
      | none =>
          rw [watch_none_eq hl] at hl' ⊢
          by_cases hd : d = file.folder
          · subst hd
            rw [lookupKV_insertKV_self] at hl'
            injection hl' with hl'
            subst hl'
            rw [lookupKV_insertKV_self]
            constructor
            · simp [ConfigFileEventHandler.add_watch_file,
                ConfigFileEventHandler.init, insertKV, lookupKV]
            · simp [ConfigFileEventHandler.add_watch_file,
                ConfigFileEventHandler.init, insertKV, lookupKV, keysKV]
          · rw [lookupKV_insertKV_ne _ _ hd] at hl'
            rw [lookupKV_insertKV_ne _ _ hd]
            exact hcm d h' hl'
  | @unwatch om file hgood hreg ih =>
      obtain ⟨hinv, hcm⟩ := ih
      refine ⟨inv1_unwatch om file hinv, ?_⟩
      obtain ⟨h, hl, hlf⟩ := isRegistered_true_elim hreg
      obtain ⟨hc0, hnd0⟩ := hcm file.folder h hl
      have hfm : file ∈ keysKV h.watch_files := (lookupKV_isSome_iff _ _).1 hlf
      have hlen := length_eraseKV_of_mem hnd0 hfm
      intro d h' hl'
      by_cases hc : (lookupKV om.dir_count file.folder).getD 0 - 1 = 0
      · rw [unwatch_some_zero_eq hl hc] at hl' ⊢
        by_cases hd : d = file.folder
        · subst hd
          rw [lookupKV_eraseKV_self] at hl'
          cases hl'
        · rw [lookupKV_eraseKV_ne _ hd] at hl'
          rw [lookupKV_eraseKV_ne _ hd]
          exact hcm d h' hl'
      · rw [unwatch_some_pos_eq hl hc] at hl' ⊢
        by_cases hd : d = file.folder
        · subst hd
          rw [lookupKV_insertKV_self] at hl'
          injection hl' with hl'
          subst hl'
          rw [lookupKV_insertKV_self]
          rw [remove_watch_file_present hlf]
          constructor
          · rw [hc0]
            simp only [Option.getD_some]
            congr 1
            omega
          · exact keysKV_nodup_eraseKV _ hnd0
        · rw [lookupKV_insertKV_ne _ _ hd] at hl'
          rw [lookupKV_insertKV_ne _ _ hd]
          exact hcm d h' hl'

/-- C2 counterexample: `watch` increments the directory's reference count
even when `add_watch_file` was a no-op because the file was already
registered, so watching the same file twice — a sequence of watch calls on
the registry — yields a reachable state whose count (2) differs from the
number of distinct files registered with the directory's handler (1). -/
theorem refcount_double_watch_counterexample :
    let f : ConfigFile := ⟨"d", "a.json"⟩
    let om := (ObserverManager.initial.watch f 1).watch f 2
    om.countOf "d" = 2 ∧ om.filesOf "d" = 1 := by
  decide

/-- C2 amended: for every sequence of `watch`/`unwatch` calls the reference
counts stay non-negative; and for every sequence that never watches an
already-registered file and only unwatches registered files, each
directory's count equals the number of distinct files registered with its
handler (the handler's key list is duplicate-free), and the directory
carries exactly one OS-level watch while the count is positive and none
once it is zero — the watch is removed exactly when the count reaches
zero. -/
theorem refcount_invariant :
    (∀ om, ObserverManager.Reach om → ∀ d, 0 ≤ om.countOf d) ∧
    (∀ om, ObserverManager.GoodReach om → ∀ d,
      om.countOf d = (om.filesOf d : Int) ∧
      om.watchCount d = (if 0 < om.countOf d then 1 else 0) ∧
      (∀ h, lookupKV om.dir_to_event_handler d = some h →
        (keysKV h.watch_files).Nodup)) := by
  constructor
  · intro om hr d
    have hinv := reach_inv1 hr
    unfold ObserverManager.countOf
    cases hc : lookupKV om.dir_count d with
    | none => simp
    | some c =>
        have := hinv.posC _ _ hc
        simp only [Option.getD_some]
        omega
  · intro om hg d
    obtain ⟨hinv, hcm⟩ := good_inv hg
    cases hl : lookupKV om.dir_to_event_handler d with
    | none =>
        have hcd : lookupKV om.dir_count d = none := by
          cases hcd : lookupKV om.dir_count d with
          | none => rfl
          | some c =>
              have hds := (hinv.domEq d).1 (by rw [hcd]; rfl)
              rw [hl] at hds
              cases hds
        have hns : d ∉ om.scheduled := by
          rw [hinv.schedDom d, hl]
          simp
        refine ⟨?_, ?_, ?_⟩
        · unfold ObserverManager.countOf ObserverManager.filesOf
          rw [hcd, hl]
          simp
        · unfold ObserverManager.watchCount ObserverManager.countOf
          rw [countP_key_eq_zero hns, hcd]
          simp
        · intro h hlh
          cases hlh
    | some h =>
        obtain ⟨hc0, hnd⟩ := hcm d h hl
        have hpos := hinv.posC _ _ hc0
        have hs : d ∈ om.scheduled := by
          rw [hinv.schedDom d, hl]
          rfl
        refine ⟨?_, ?_, ?_⟩
        · unfold ObserverManager.countOf ObserverManager.filesOf
          rw [hc0, hl]
          simp
        · unfold ObserverManager.watchCount ObserverManager.countOf
          rw [countP_key_eq_one hinv.schedNodup hs, hc0]
          simp only [Option.getD_some]
          rw [if_pos (by omega)]
        · intro h' hlh
          injection hlh with hlh
          subst hlh
          exact hnd

/-- C2 amended, witness: the theorem applied to the reachable state after
watching one file (non-negative count) and to the disciplined state after
watching two distinct files of the same directory (count = registered
files = 2). -/
theorem refcount_invariant_witness :
    (0 : Int) ≤ (ObserverManager.initial.watch ⟨"d", "a.json"⟩ 1).countOf "d" ∧
    ((ObserverManager.initial.watch ⟨"d", "a.json"⟩ 1).watch
        ⟨"d", "b.json"⟩ 2).countOf "d"
      = ((((ObserverManager.initial.watch ⟨"d", "a.json"⟩ 1).watch
          ⟨"d", "b.json"⟩ 2).filesOf "d" : Nat) : Int) := by
  constructor
  · exact refcount_invariant.1 _
      (ObserverManager.Reach.watch _ 1 ObserverManager.Reach.init) "d"
  · exact (refcount_invariant.2 _
      (ObserverManager.GoodReach.watch _ 2
        (ObserverManager.GoodReach.watch _ 1 ObserverManager.GoodReach.init
          (by decide))
        (by decide))
      "d").1

end PyConfigEvents
